import Mathlib

/-!
Verification of the iporg repository (offline IP-to-organization database) against
its natural-language specification.

The definitions below are a shallow embedding of the Go source:

* pkg/iptoasn (unnamed part_003 and the aggregator code shipped next to
  pkg/iptoasn/parser_test.go): TSV row parsing, range-to-CIDR conversion,
  deduplication.
* pkg/util/ipcodec/ipcodec.go: range-key encoding and decoding, IsInRange.
* pkg/iporgdb (db.go, lookup.go and unnamed part_005): the main range index,
  PutRange with overlap checking, GetByIP, iteration and counting, the
  closed-database behaviour.
* ripebulk (unnamed part_002): the start+end range key and the
  organization-name fallback chain of lookupRange, with isValidOrgRemark.
* pkg/sources/rdap (parser.go, client.go): ParseOrg entity-selection
  precedence, GetEntityName, DetermineRIR.

Machine integers are modelled as Nat with explicit reduction modulo 2^32 where
the Go code works on uint32.  Go strings are modelled as Lean strings operating
on their character lists; the Go data relevant here is ASCII, where Go's
byte-wise length, ToLower and TrimSpace agree with the character-wise model.
Fallible Go functions returning (value, error) are modelled with Option/Except.
Loops whose termination is in question are modelled with explicit fuel;
exhausting fuel is reported as a distinguished result.
-/

namespace Iporg

/-! ## Character and string helpers (Go strings package semantics on ASCII) -/

/-- Whitespace recognized by Go strings.TrimSpace, restricted to ASCII:
space, tab, newline, carriage return, vertical tab, form feed. -/
def isGoSpace (c : Char) : Bool :=
  c = ' ' || c = '\t' || c = '\n' || c = '\r' || c = Char.ofNat 11 || c = Char.ofNat 12

/-- Go strings.TrimSpace on a character list. -/
def goTrim (cs : List Char) : List Char :=
  ((cs.dropWhile isGoSpace).reverse.dropWhile isGoSpace).reverse

/-- Go strings.Split with a single-character separator: splits on every
occurrence, keeping empty fields. -/
def goSplitCh (sep : Char) : List Char → List (List Char)
  | [] => [[]]
  | c :: rest =>
    match goSplitCh sep rest with
    | [] => [[]]
    | g :: gs => if c = sep then [] :: g :: gs else (c :: g) :: gs

/-- Go strings.HasPrefix on character lists. -/
def chHasPre (cs pre : List Char) : Bool := pre.isPrefixOf cs

/-- Go strings.HasSuffix on character lists. -/
def chHasSuf (cs suf : List Char) : Bool := suf.reverse.isPrefixOf cs.reverse

/-- Go strings.Contains on character lists (substring search). -/
def chContains (cs pat : List Char) : Bool :=
  (List.range (cs.length + 1)).any (fun i => pat.isPrefixOf (cs.drop i))

/-- Go strings.ToLower restricted to ASCII. -/
def chToLower (cs : List Char) : List Char := cs.map Char.toLower

/-- Numeric value of a list of decimal digit characters. -/
def chDigitsVal (cs : List Char) : Nat :=
  cs.foldl (fun a c => a * 10 + (c.toNat - 48)) 0

/-- Go strconv.Atoi restricted to the unsigned decimal strings appearing in
the data modelled here (no sign handling). -/
def atoiGo (cs : List Char) : Option Nat :=
  if cs ≠ [] ∧ cs.all Char.isDigit then some (chDigitsVal cs) else none

/-- One dotted-quad octet as parsed by Go net/netip ParseAddr: one to three
decimal digits, value at most 255, leading zeros rejected. -/
def parseOctet (cs : List Char) : Option Nat :=
  if cs ≠ [] ∧ cs.length ≤ 3 ∧ cs.all Char.isDigit ∧
      (cs.length = 1 ∨ cs.head? ≠ some '0') then
    let v := chDigitsVal cs
    if v ≤ 255 then some v else none
  else none

/-- Go net/netip ParseAddr restricted to IPv4 dotted-quad form, yielding the
address as a 32-bit big-endian integer.  (The IPv6 grammar is not modelled;
every use below either is IPv4-only by construction or rejects IPv6.) -/
def parseAddrV4Chars (cs : List Char) : Option Nat :=
  match goSplitCh '.' cs with
  | [a, b, c, d] =>
    match parseOctet a, parseOctet b, parseOctet c, parseOctet d with
    | some va, some vb, some vc, some vd =>
      some (va * 16777216 + vb * 65536 + vc * 256 + vd)
    | _, _, _, _ => none
  | _ => none

/-! ## iptoasn: range-to-CIDR conversion (unnamed part_003, rangeToCIDRsV4) -/

/-- Trailing-zero count loop of rangeToCIDRsV4 for a nonzero uint32
(for temp with last bit 0: count and shift right), with fuel 32. -/
def ctzAux : Nat → Nat → Nat
  | 0, _ => 0
  | fuel + 1, n => if n % 2 = 1 then 0 else 1 + ctzAux fuel (n / 2)

/-- maxTrailingZeros of rangeToCIDRsV4: 32 for zero, else the number of
trailing zero bits. -/
def ctz32 (n : Nat) : Nat := if n = 0 then 32 else ctzAux 32 n

/-- Inner loop of rangeToCIDRsV4: starting from prefix length pl, find the
first length whose aligned block starting at s ends at or before e.  The
block size 1 <<< (32-pl) is computed in uint32, so pl = 0 gives size 0 and a
wrapped block end; prefixLen defaults to 32 when the loop finds nothing. -/
def findPLAux : Nat → Nat → Nat → Nat → Nat
  | 0, _, _, _ => 32
  | fuel + 1, pl, s, e =>
    let blockSize := 2 ^ (32 - pl) % 4294967296
    let blockEnd := (s + blockSize + 4294967295) % 4294967296
    if blockEnd ≤ e then pl else findPLAux fuel (pl + 1) s e

/-- Outer loop of rangeToCIDRsV4 (unnamed part_003 lines 373-425), with fuel.
Each emitted CIDR is a pair (network uint32, prefix length).  The source's
wraparound guard breaks only when startInt wrapped to 0 and endInt is not
0xFFFFFFFF; the model reproduces that condition exactly.  none means the
fuel ran out with the loop condition still true. -/
def rangeLoop : Nat → Nat → Nat → List (Nat × Nat) → Option (List (Nat × Nat))
  | 0, s, e, acc => if s ≤ e then none else some acc.reverse
  | fuel + 1, s, e, acc =>
    if s ≤ e then
      let mtz := ctz32 s
      let pl := findPLAux (mtz + 1) (32 - mtz) s e
      let acc' := (s, pl) :: acc
      let blockSize := 2 ^ (32 - pl) % 4294967296
      let s' := (s + blockSize) % 4294967296
      if s' = 0 ∧ e ≠ 4294967295 then some acc'.reverse
      else rangeLoop fuel s' e acc'
    else some acc.reverse

/-- Errors of the iptoasn TSV row parse (part_003 ParseNext). -/
inductive IptErr
  | fieldCount
  | badStartIP
  | badEndIP
  | badASN
  | rangeConvert
  | noCIDRs
  deriving DecidableEq

/-- rangeToCIDRsV4 of unnamed part_003: convert an inclusive uint32 range to
covering CIDRs.  .error for start greater than end; .ok none when the loop
has not finished within the given fuel. -/
def rangeToCIDRsV4 (fuel s e : Nat) : Except IptErr (Option (List (Nat × Nat))) :=
  if s > e then .error .rangeConvert else .ok (rangeLoop fuel s e [])

/-- A parsed iptoasn row (model.RawRow): the covering CIDR, its uint32
bounds, and the shared row attributes. -/
structure RawRow where
  pfx : Nat × Nat
  startU : Nat
  endU : Nat
  asn : Nat
  country : String
  registry : String
  asName : String
  deriving DecidableEq

/-- cidrToRange of part_003: inclusive uint32 bounds of a CIDR, computed with
uint32 arithmetic. -/
def cidrToRangeU (pfx : Nat × Nat) : Nat × Nat :=
  (pfx.1, (pfx.1 + (2 ^ (32 - pfx.2) % 4294967296) + 4294967295) % 4294967296)

/-- Fuel handed to rangeToCIDRsV4 by the row parser; any terminating
execution of the Go loop emits at most 64 CIDRs, so 70 is not restrictive. -/
def rtFuel : Nat := 70

/-- ParseNext of unnamed part_003 (lines 251-344) on a single input line:
trim, skip blanks and comments, split on tabs, parse both endpoints, ASN,
country (non-two-letter nonempty countries become ZZ), registry and optional
AS name, then expand the range to CIDRs and emit one row per CIDR.
The endpoint grammar is modelled for IPv4 only, so the
distinct-family error branch of the source is unrepresentable here. -/
def parseNext (lineS : String) : Except IptErr (Option (List RawRow)) :=
  let line := goTrim lineS.data
  if line = [] ∨ line.head? = some '#' then .ok none
  else
    match goSplitCh '\t' line with
    | f0 :: f1 :: f2 :: f3 :: f4 :: rest =>
      match parseAddrV4Chars (goTrim f0) with
      | none => .error .badStartIP
      | some s =>
        match parseAddrV4Chars (goTrim f1) with
        | none => .error .badEndIP
        | some e =>
          match atoiGo (goTrim f2) with
          | none => .error .badASN
          | some asn =>
            let ctry := goTrim f3
            let country :=
              if ¬ctry.length = 2 ∧ ¬ctry = ['Z', 'Z'] then
                if ctry ≠ [] then ['Z', 'Z'] else ctry
              else ctry
            let registry := goTrim f4
            let asName := match rest with | [] => ([] : List Char) | r :: _ => goTrim r
            match rangeToCIDRsV4 rtFuel s e with
            | .error err => .error err
            | .ok none => .error .rangeConvert
            | .ok (some cidrs) =>
              if cidrs = [] then .error .noCIDRs
              else
                .ok (some (cidrs.map (fun pr =>
                  let bounds := cidrToRangeU pr
                  { pfx := pr, startU := bounds.1, endU := bounds.2, asn := asn,
                    country := String.mk country, registry := String.mk registry,
                    asName := String.mk asName })))
    | _ => .error .fieldCount

/-! ## iptoasn: Deduplicate (aggregator code next to parser_test.go) -/

/-- A canonical prefix record (model.CanonicalPrefix). -/
structure CanonicalPfx where
  cidr : String
  asn : Nat
  country : String
  registry : String
  asName : String
  deriving DecidableEq

/-- The code point produced by the Go conversion string(rune(n)): surrogates
and values above 0x10FFFF collapse to U+FFFD. -/
def goRuneOf (n : Nat) : Nat :=
  if 55296 ≤ n ∧ n ≤ 57343 then 65533
  else if n ≤ 1114111 then n else 65533

/-- The deduplication key of Deduplicate: CIDR string, a pipe, and the
single character string(rune(ASN)). -/
def dedupKey (p : CanonicalPfx) : String :=
  p.cidr ++ "|" ++ String.mk [Char.ofNat (goRuneOf p.asn)]

/-- Loop of Deduplicate with the seen-key set as a list. -/
def dedupAux : List String → List CanonicalPfx → List CanonicalPfx
  | _, [] => []
  | seen, p :: rest =>
    let k := dedupKey p
    if seen.contains k then dedupAux seen rest
    else p :: dedupAux (k :: seen) rest

/-- Deduplicate of the iptoasn aggregator: drop records whose key (CIDR and
rune-compressed ASN) was already seen, keeping first occurrences. -/
def Deduplicate (l : List CanonicalPfx) : List CanonicalPfx := dedupAux [] l

/-! ## ipcodec: addresses, byte keys (pkg/util/ipcodec/ipcodec.go) -/

/-- A net/netip Addr: the zero Addr is invalid; otherwise an IPv4 or IPv6
address carried as its big-endian integer value. -/
inductive GoAddr
  | invalid
  | v4 (n : Nat)
  | v6 (n : Nat)
  deriving DecidableEq

/-- netip Addr.IsValid. -/
def GoAddr.isValid : GoAddr → Bool
  | .invalid => false
  | _ => true

/-- netip Addr.Is4. -/
def GoAddr.is4 : GoAddr → Bool
  | .v4 _ => true
  | _ => false

/-- Bit-length rank used by netip Addr.Compare: invalid before IPv4 before
IPv6. -/
def GoAddr.rank : GoAddr → Nat
  | .invalid => 0
  | .v4 _ => 1
  | .v6 _ => 2

/-- Integer value of an address (0 for the invalid address). -/
def GoAddr.valNat : GoAddr → Nat
  | .invalid => 0
  | .v4 n => n
  | .v6 n => n

/-- netip Addr.Compare: first by bit length, then by address bytes. -/
def addrCmp (a b : GoAddr) : Ordering :=
  if a.rank < b.rank then .lt
  else if b.rank < a.rank then .gt
  else if a.valNat < b.valNat then .lt
  else if b.valNat < a.valNat then .gt
  else .eq

/-- IsInRange of ipcodec.go: ip.Compare(start) ≥ 0 and ip.Compare(end) ≤ 0. -/
def isInRange (ip s e : GoAddr) : Bool :=
  addrCmp ip s != Ordering.lt && addrCmp ip e != Ordering.gt

/-- Big-endian 4-byte encoding of a uint32. -/
def be4 (n : Nat) : List Nat :=
  [n / 16777216 % 256, n / 65536 % 256, n / 256 % 256, n % 256]

/-- Big-endian 16-byte encoding of a 128-bit value. -/
def be16 (n : Nat) : List Nat :=
  (List.range 16).map (fun i => n / 256 ^ (15 - i) % 256)

/-- netip Addr.AsSlice (IPToBytes of ipcodec.go): nil for the invalid
address, else the big-endian bytes. -/
def ipToBytes : GoAddr → List Nat
  | .invalid => []
  | .v4 n => be4 n
  | .v6 n => be16 n

/-- The bytes of the string R4: (PrefixRangeV4). -/
def preR4 : List Nat := [82, 52, 58]

/-- The bytes of the string R6: (PrefixRangeV6). -/
def preR6 : List Nat := [82, 54, 58]

/-- EncodeRangeKey of ipcodec.go: R4: plus the 4 address bytes for IPv4,
else R6: plus the address bytes copied into a zeroed 16-byte buffer
(the invalid address therefore yields R6: plus 16 zero bytes). -/
def encodeRangeKey (ip : GoAddr) : List Nat :=
  if ip.is4 then preR4 ++ be4 ip.valNat
  else preR6 ++ (ipToBytes ip ++ List.replicate 16 0).take 16

/-- BytesToIP of ipcodec.go (netip AddrFromSlice): 4 bytes give an IPv4
address, 16 bytes an IPv6 address, anything else fails. -/
def bytesToIP (b : List Nat) : Option GoAddr :=
  if b.length = 4 then some (.v4 (b.foldl (fun a x => a * 256 + x) 0))
  else if b.length = 16 then some (.v6 (b.foldl (fun a x => a * 256 + x) 0))
  else none

/-- DecodeRangeKey of ipcodec.go.  The source tests key length ≥ 7 together
with the R4: text, then length ≥ 19 with R6:; matching on the three leading
bytes and then requiring exactly 4 (resp. 16) remaining bytes yields the
same result on every input. -/
def decodeRangeKey : List Nat → Option GoAddr
  | 82 :: 52 :: 58 :: rest => if rest.length = 4 then bytesToIP rest else none
  | 82 :: 54 :: 58 :: rest => if rest.length = 16 then bytesToIP rest else none
  | _ => none

/-! ## The main range index (pkg/iporgdb: db.go, lookup.go, unnamed part_005) -/

/-- Lexicographic order on byte strings: the LevelDB default key comparer. -/
def lexLtB : List Nat → List Nat → Bool
  | [], [] => false
  | [], _ :: _ => true
  | _ :: _, [] => false
  | a :: xs, b :: ys => if a < b then true else if b < a then false else lexLtB xs ys

/-- Lexicographic at-most on byte strings. -/
def lexLeB (a b : List Nat) : Bool := !lexLtB b a

/-- The stored value of a main-index record (encodeRecord of db.go):
the end address as bytes plus the payload fields used by the claims. -/
structure StoredV where
  endBytes : List Nat
  asn : Nat
  orgName : String
  pfx : String
  deriving DecidableEq

/-- One key/value pair of the LevelDB store. -/
structure Entry where
  key : List Nat
  val : StoredV
  deriving DecidableEq

/-- The LevelDB contents: entries sorted by key, unique keys. -/
abbrev Store := List Entry

/-- A main-index range record (model.Record, the fields the claims use). -/
structure GoRecord where
  start : GoAddr
  endA : GoAddr
  asn : Nat
  orgName : String
  pfx : String
  deriving DecidableEq

/-- encodeRecord of db.go: the stored value carries IPToBytes(rec.End) and
the payload fields. -/
def encodeRecord (r : GoRecord) : StoredV :=
  { endBytes := ipToBytes r.endA, asn := r.asn, orgName := r.orgName, pfx := r.pfx }

/-- decodeRecord of db.go: rebuild the record from the start bytes (taken
from the key) and the stored value; fails when either address slice is not
a valid address length. -/
def decodeRecordM (startBytes : List Nat) (v : StoredV) : Option GoRecord :=
  match bytesToIP startBytes, bytesToIP v.endBytes with
  | some s, some e => some { start := s, endA := e, asn := v.asn, orgName := v.orgName, pfx := v.pfx }
  | _, _ => none

/-- LevelDB Put: insert or overwrite, keeping the entries sorted by key. -/
def storePut : Store → List Nat → StoredV → Store
  | [], k, v => [⟨k, v⟩]
  | e :: rest, k, v =>
    if lexLtB k e.key then ⟨k, v⟩ :: e :: rest
    else if k = e.key then ⟨k, v⟩ :: rest
    else e :: storePut rest k v

/-- LevelDB Delete: remove the entry with the given key, if present. -/
def storeDelete : Store → List Nat → Store
  | [], _ => []
  | e :: rest, k => if e.key = k then rest else e :: storeDelete rest k

/-- LevelDB iterator Seek on a sorted entry list: index of the first entry
whose key is not below the search key (equal to the length when none is). -/
def seekPos (l : Store) (k : List Nat) : Nat :=
  (l.takeWhile (fun e => lexLtB e.key k)).length

/-- Membership in the iterator slice used by checkOverlap, IterateRanges and
CountRanges of part_005: keys at or after the family text and strictly
before the family text followed by byte 0xFF. -/
def inFamilySlice (ip4 : Bool) (k : List Nat) : Bool :=
  let p := if ip4 then preR4 else preR6
  lexLeB p k && lexLtB k (p ++ [255])

/-- The sub-store visible through the family-restricted iterator. -/
def familySlice (ip4 : Bool) (l : Store) : Store :=
  l.filter (fun e => inFamilySlice ip4 e.key)

/-- Error taxonomy of the iporgdb model layer, plus levelDBClosed for the
error value the underlying goleveldb store reports through a released
iterator of a closed database (a value distinct from model.ErrDatabaseClosed). -/
inductive DBErr
  | notFound
  | invalidRange
  | invalidIP
  | invalidKey
  | decodeFailed
  | overlapCovered
  | overlapConflict
  | databaseClosed
  | levelDBClosed
  deriving DecidableEq

/-- The iporgdb DB handle: LevelDB contents and the closed flag. -/
structure DBState where
  entries : Store
  closed : Bool
  deriving DecidableEq

/-- Get of db.go: DatabaseClosed when closed; not-found yields (nil, nil),
modelled as none. -/
def dbGet (d : DBState) (k : List Nat) : Except DBErr (Option StoredV) :=
  if d.closed then .error .databaseClosed
  else .ok ((d.entries.find? (fun e => e.key = k)).map Entry.val)

/-- Put of db.go. -/
def dbPut (d : DBState) (k : List Nat) (v : StoredV) : Except DBErr DBState :=
  if d.closed then .error .databaseClosed
  else .ok { d with entries := storePut d.entries k v }

/-- Delete of db.go. -/
def dbDelete (d : DBState) (k : List Nat) : Except DBErr DBState :=
  if d.closed then .error .databaseClosed
  else .ok { d with entries := storeDelete d.entries k }

/-- Number of prefix bits of a CIDR string (getPrefixLen of part_005,
netip.ParsePrefix restricted to IPv4): 0 when the string does not parse. -/
def parseBitsCh (cs : List Char) : Option Nat :=
  if cs ≠ [] ∧ cs.length ≤ 2 ∧ cs.all Char.isDigit ∧ (cs.length = 1 ∨ cs.head? ≠ some '0') then
    let v := chDigitsVal cs
    if v ≤ 32 then some v else none
  else none

/-- ParsePrefix restricted to IPv4 dotted-quad/bits form. -/
def parsePrefixGo (s : String) : Option (Nat × Nat) :=
  match goSplitCh '/' s.data with
  | [a, b] =>
    match parseAddrV4Chars a, parseBitsCh b with
    | some ip, some bits => some (ip, bits)
    | _, _ => none
  | _ => none

/-- getPrefixLen of part_005: prefix length of the record's CIDR string,
0 on a parse failure. -/
def getPrefixLen (s : String) : Nat :=
  match parsePrefixGo s with
  | none => 0
  | some pr => pr.2

/-- Outcome of examining one iterator entry inside checkOverlap.  cont means
no overlap (or an undecodable entry), okKeep is the exact-match update path,
okDelete is the replace-more-specific path (delete that key), fail reports
an overlap error. -/
inductive OvStep
  | cont
  | okKeep
  | okDelete (k : List Nat)
  | fail (err : DBErr)
  deriving DecidableEq

/-- The body of the checkOverlap loop of part_005 (lines 82-143) applied to
one entry. -/
def overlapStep (newRec : GoRecord) (e : Entry) : OvStep :=
  match decodeRangeKey e.key with
  | none => .cont
  | some s =>
    match decodeRecordM (ipToBytes s) e.val with
    | none => .cont
    | some ex =>
      if addrCmp newRec.start ex.endA ≠ Ordering.gt ∧ addrCmp ex.start newRec.endA ≠ Ordering.gt then
        if ex.start = newRec.start ∧ ex.endA = newRec.endA then .okKeep
        else
          let np := getPrefixLen newRec.pfx
          let ep := getPrefixLen ex.pfx
          if np > ep then .fail .overlapCovered
          else if np < ep then .okDelete e.key
          else .fail .overlapConflict
      else .cont

/-- checkOverlap of part_005 on the open store contents: seek the new start
key inside the family slice, step back once (or to the last entry when the
seek ran off the end), then examine at most two consecutive entries.  When
the seek lands on the first slice entry, stepping back invalidates the
iterator and no entry is examined at all. -/
def checkOverlapCore (newRec : GoRecord) (l : Store) : Except DBErr Store :=
  let sub := familySlice newRec.start.is4 l
  let searchKey := encodeRangeKey newRec.start
  let i := seekPos sub searchKey
  let p0 : Option Nat :=
    if i < sub.length then (if i = 0 then none else some (i - 1))
    else (if sub.length = 0 then none else some (sub.length - 1))
  match p0 with
  | none => .ok l
  | some p =>
    match sub[p]? with
    | none => .ok l
    | some e =>
      match overlapStep newRec e with
      | .fail err => .error err
      | .okKeep => .ok l
      | .okDelete k => .ok (storeDelete l k)
      | .cont =>
        match sub[p + 1]? with
        | none => .ok l
        | some e2 =>
          match overlapStep newRec e2 with
          | .fail err => .error err
          | .okKeep => .ok l
          | .okDelete k => .ok (storeDelete l k)
          | .cont => .ok l

/-- checkOverlap of part_005 on the DB handle.  NewIterator of db.go performs
no closed check; on a closed database the underlying iterator is empty, the
loop body never runs and checkOverlap returns nil. -/
def checkOverlap (newRec : GoRecord) (d : DBState) : Except DBErr DBState :=
  if d.closed then .ok d
  else
    match checkOverlapCore newRec d.entries with
    | .error err => .error err
    | .ok l => .ok { d with entries := l }

/-- PutRange of part_005 (lines 16-44): validity of both endpoints, then
start ≤ end, then the overlap check, then the write under the start-only
key EncodeRangeKey(rec.Start). -/
def putRange (rec : GoRecord) (d : DBState) : Except DBErr DBState :=
  if ¬rec.start.isValid ∨ ¬rec.endA.isValid then .error .invalidRange
  else if addrCmp rec.start rec.endA = Ordering.gt then .error .invalidRange
  else
    match checkOverlap rec d with
    | .error err => .error err
    | .ok d1 => dbPut d1 (encodeRangeKey rec.start) (encodeRecord rec)

/-- The family text checked against candidate keys by GetByIP. -/
def familyPreBytes (ip : GoAddr) : List Nat := if ip.is4 then preR4 else preR6

/-- The shared tail of GetByIP (lookup.go lines 101-121, and the equivalent
exact-match branch 73-85): decode the key and record of the entry the
iterator rests on and return the record iff the query is inside its range. -/
def finishEntry (ip : GoAddr) (e : Entry) : Except DBErr GoRecord :=
  match decodeRangeKey e.key with
  | none => .error .invalidKey
  | some s =>
    match decodeRecordM (ipToBytes s) e.val with
    | none => .error .decodeFailed
    | some rec =>
      if isInRange ip rec.start rec.endA then .ok rec else .error .notFound

/-- The step-back-then-check branch of GetByIP (lookup.go lines 59-65 and
89-95): not-found when there is no previous entry or its key is of the
wrong family. -/
def prevFinish (ip : GoAddr) (pre : List Nat) (l : Store) (i : Nat) : Except DBErr GoRecord :=
  if i = 0 then .error .notFound
  else
    match l[i - 1]? with
    | none => .error .notFound
    | some e => if pre.isPrefixOf e.key then finishEntry ip e else .error .notFound

/-- GetByIP of lookup.go on the open store contents: seek the query key over
the whole database, fall back to the last entry when the seek ran off the
end, step back when the found key is of another family or starts past the
query, and accept only an entry whose range contains the query. -/
def getByIPCore (ip : GoAddr) (l : Store) : Except DBErr GoRecord :=
  let pre := familyPreBytes ip
  let searchKey := encodeRangeKey ip
  let i := seekPos l searchKey
  match l[i]? with
  | none =>
    match l[l.length - 1]? with
    | none => .error .notFound
    | some e => if pre.isPrefixOf e.key then finishEntry ip e else .error .notFound
  | some e =>
    if pre.isPrefixOf e.key then
      match decodeRangeKey e.key with
      | none => .error .invalidKey
      | some s =>
        match addrCmp s ip with
        | .eq => finishEntry ip e
        | .gt => prevFinish ip pre l i
        | .lt => finishEntry ip e
    else prevFinish ip pre l i

/-- GetByIP of lookup.go: DatabaseClosed when closed, InvalidIP for the
invalid address, else the seek/prev lookup. -/
def getByIP (ip : GoAddr) (d : DBState) : Except DBErr GoRecord :=
  if d.closed then .error .databaseClosed
  else if ¬ip.isValid then .error .invalidIP
  else getByIPCore ip d.entries

/-- Decoding of one iterator entry as done by IterateRanges (undecodable
entries are skipped with a warning). -/
def decodeEntry (e : Entry) : Option GoRecord :=
  match decodeRangeKey e.key with
  | none => none
  | some s => decodeRecordM (ipToBytes s) e.val

/-- IterateRanges of part_005.  NewIterator of db.go (lines 118-124) does not
consult the closed flag, so on a closed database the underlying goleveldb
store hands back an error iterator: Next is immediately false and
iter.Error() reports the store's own closed error, modelled as
levelDBClosed, not databaseClosed. -/
def iterateRanges (v4 : Bool) (d : DBState) : Except DBErr (List GoRecord) :=
  if d.closed then .error .levelDBClosed
  else .ok ((familySlice v4 d.entries).filterMap decodeEntry)

/-- CountRanges of part_005, with the same closed behaviour as
IterateRanges. -/
def countRanges (d : DBState) : Except DBErr (Nat × Nat) :=
  if d.closed then .error .levelDBClosed
  else .ok ((familySlice true d.entries).length, (familySlice false d.entries).length)

/-- Well-formedness of a store for the family claim of GetByIP: the stored
end bytes of an R4: entry are an IPv4 slice and those of an R6: entry an
IPv6 slice (every record written by PutRange under a family key satisfies
this). -/
def wfStore (l : Store) : Prop :=
  ∀ e ∈ l, (preR4.isPrefixOf e.key → e.val.endBytes.length = 4) ∧
    (preR6.isPrefixOf e.key → e.val.endBytes.length = 16)

/-! ## ripebulk and arinbulk range keys (unnamed part_002, arinbulk/database.go) -/

/-- makeRangeKey of the RIPE bulk index (part_002 lines 780-788), equally the
key construction of the ARIN bulk index: R4: plus 4-byte big-endian start
plus 4-byte big-endian end. -/
def makeRangeKey (startIP endIP : Nat) : List Nat :=
  preR4 ++ be4 startIP ++ be4 endIP

/-! ## ripebulk: organization-name resolution of lookupRange (unnamed part_002) -/

/-- A RIPE organisation object. -/
structure Organisation where
  orgID : String
  orgName : String
  orgType : String
  deriving DecidableEq

/-- A RIPE inetnum object (the fields lookupRange reads). -/
structure Inetnum where
  startU : Nat
  endU : Nat
  orgID : String
  status : String
  country : String
  netname : String
  descr : String
  remarks : List String
  deriving DecidableEq

/-- The instructional lead-ins rejected by isValidOrgRemark, in source
order. -/
def instructionalPres : List String :=
  ["please ", "for registration", "you can consult", "this network",
   "abuse", "contact", "send ", "see ", "visit ", "refer to"]

/-- isValidOrgRemark of part_002 (lines 352-405): length at least 3, not a
URL, no at-sign or mailto, not starting (after trimming) with a star or
dash, not an instructional lead-in, and at most 80 percent separator
characters. -/
def isValidOrgRemark (remark : String) : Bool :=
  let cs := remark.data
  if cs.length < 3 then false
  else
    let lower := chToLower cs
    if chHasPre lower "http://".data || chHasPre lower "https://".data then false
    else if chContains lower "mailto:".data || chContains cs "@".data then false
    else
      let trimmed := goTrim cs
      if chHasPre trimmed "*".data then false
      else if chHasPre trimmed "-".data then false
      else if instructionalPres.any (fun p => chHasPre lower p.data) then false
      else
        let sepCount := (cs.filter (fun c =>
          c = '-' || c = '*' || c = '=' || c = '_' || c = '#')).length
        if sepCount > cs.length * 4 / 5 then false
        else true

/-- GetOrganisation of part_002 on the organisation table, keyed by the org
handle; none models the not-found error. -/
def getOrganisation (orgs : List Organisation) (id : String) : Option Organisation :=
  orgs.find? (fun o => o.orgID = id)

/-- The organization-name fallback of lookupRange (part_002 lines 674-706),
returning the resolved (orgName, orgType).  The sentinel is the literal
string used by the source; every fallback tests the name against that
sentinel, so a handle that resolves to an organisation keeps whatever
org-name it carries, including the empty string. -/
def resolveOrgName (orgs : List Organisation) (m : Inetnum) : String × String :=
  let base := ("(no org)", "")
  let p1 :=
    if m.orgID ≠ "" then
      match getOrganisation orgs m.orgID with
      | some org => (org.orgName, org.orgType)
      | none => base
    else base
  let p2 :=
    if p1.1 = "(no org)" ∧ m.descr ≠ "" then
      let d := String.mk (goTrim m.descr.data)
      if isValidOrgRemark d then (d, p1.2) else p1
    else p1
  let p3 :=
    if p2.1 = "(no org)" ∧ m.remarks ≠ [] then
      match (m.remarks.map (fun r => String.mk (goTrim r.data))).find? isValidOrgRemark with
      | some r => (r, p2.2)
      | none => p2
    else p2
  if p3.1 = "(no org)" ∧ m.netname ≠ "" then (m.netname, p3.2) else p3

/-! ## RDAP response parsing (pkg/sources/rdap: parser.go, client.go) -/

/-- A nested RDAP entity; ParseOrg only ever reads the vCard of entities
nested one level below a selected entity, so deeper nesting is not
modelled. -/
structure RSubEntity where
  handle : String
  roles : List String
  vcard : Option (List (String × String))
  deriving DecidableEq

/-- A top-level RDAP entity.  The vCard is modelled as the list of
(field name, text value) tuples of vCardArray[1]; none models a missing or
malformed vCardArray. -/
structure REntity where
  handle : String
  roles : List String
  vcard : Option (List (String × String))
  nested : List RSubEntity
  deriving DecidableEq

/-- An RDAP remark (the description lines). -/
structure RRemark where
  description : List String
  deriving DecidableEq

/-- An RDAP IP-network response (the fields ParseOrg and DetermineRIR
read; links is the list of href values). -/
structure RResponse where
  name : String
  startAddress : String
  status : List String
  entities : List REntity
  remarks : List RRemark
  links : List String
  port43 : String
  deriving DecidableEq

/-- The parsed organization (model.RDAPOrg). -/
structure RDAPOrg where
  orgName : String
  rir : String
  sourceRole : String
  statusLabel : String
  deriving DecidableEq

/-- GetEntityName of client.go on a modelled vCard: the first fn or org
field with a non-empty value. -/
def vcardName (vc : Option (List (String × String))) : String :=
  match vc with
  | none => ""
  | some fields =>
    match fields.find? (fun f => (f.1 = "fn" ∨ f.1 = "org") ∧ f.2 ≠ "") with
    | some f => f.2
    | none => ""

/-- guessRIRFromIP of client.go, for IPv4 start addresses (an IPv6 start
falls through to UNKNOWN in the source as well). -/
def guessRIRFromIP (s : String) : String :=
  match parseAddrV4Chars s.data with
  | none => "UNKNOWN"
  | some n =>
    let b := n / 16777216 % 256
    if 80 ≤ b ∧ b ≤ 95 then "RIPE"
    else if (1 ≤ b ∧ b ≤ 24) ∨ (96 ≤ b ∧ b ≤ 126) then "ARIN"
    else "UNKNOWN"

/-- The RIR names matched, with their search substrings, in source order. -/
def rirSubstrings : List (String × String) :=
  [("ripe", "RIPE"), ("arin", "ARIN"), ("apnic", "APNIC"),
   ("lacnic", "LACNIC"), ("afrinic", "AFRINIC")]

/-- The link scan of DetermineRIR: first href containing an RIR domain. -/
def linksRIR : List String → Option String
  | [] => none
  | href :: rest =>
    let h := chToLower href.data
    match (rirSubstrings.find? (fun pr => chContains h (pr.1 ++ ".net").data)) with
    | some pr => some pr.2
    | none => linksRIR rest

/-- DetermineRIR of client.go: port43 substring match, then the links scan,
then the start-address guess, else UNKNOWN. -/
def determineRIR (resp : RResponse) : String :=
  let fromPort :=
    if resp.port43 ≠ "" then
      let p := chToLower resp.port43.data
      (rirSubstrings.find? (fun pr => chContains p pr.1.data)).map Prod.snd
    else none
  match fromPort with
  | some r => r
  | none =>
    match linksRIR resp.links with
    | some r => r
    | none =>
      if resp.startAddress ≠ "" then guessRIRFromIP resp.startAddress
      else "UNKNOWN"

/-- extractOrgFromRemarks of parser.go: the first remark description line
that is non-empty after trimming. -/
def extractOrgFromRemarks (resp : RResponse) : String :=
  match ((resp.remarks.map RRemark.description).flatten.map
      (fun d => String.mk (goTrim d.data))).find? (fun d => d ≠ "") with
  | some d => d
  | none => ""

/-- The candidate entities collected by the role scan of ParseOrg. -/
structure Cands where
  customer : Option REntity
  orgReg : Option REntity
  reg : Option REntity
  admin : Option REntity
  tech : Option REntity
  abuse : Option REntity
  deriving DecidableEq

/-- The empty candidate set. -/
def noCands : Cands :=
  { customer := none, orgReg := none, reg := none, admin := none, tech := none, abuse := none }

/-- One role of one entity, as processed by the scan loop of ParseOrg
(lines 49-71): customer and abuse keep the last entity seen, the registrant
slots and administrative and technical keep the first. -/
def roleStep (e : REntity) (c : Cands) (role : String) : Cands :=
  let rl := String.mk (chToLower role.data)
  if rl = "customer" then { c with customer := some e }
  else if rl = "registrant" then
    if chHasPre e.handle.data "ORG-".data ∧ c.orgReg = none then { c with orgReg := some e }
    else if c.reg = none then { c with reg := some e }
    else c
  else if rl = "administrative" then (if c.admin = none then { c with admin := some e } else c)
  else if rl = "technical" then (if c.tech = none then { c with tech := some e } else c)
  else if rl = "abuse" then { c with abuse := some e }
  else c

/-- The entity scan of ParseOrg: entities whose handle ends in -MNT are
skipped entirely. -/
def scanEntity (c : Cands) (e : REntity) : Cands :=
  if chHasSuf e.handle.data "-MNT".data then c else e.roles.foldl (roleStep e) c

/-- Name extraction for a selected entity (parser.go lines 119-132): its own
vCard name, else the first non-empty vCard name among its direct nested
entities. -/
def selectedName (e : REntity) : String :=
  let n := vcardName e.vcard
  if n = "" then
    match e.nested.find? (fun se => vcardName se.vcard ≠ "") with
    | some se => vcardName se.vcard
    | none => ""
  else n

/-- The shared fallback tail of ParseOrg (lines 134-169), entered once a
candidate entity was selected (or none existed): any entity name, then the
loose network-name check, then the remarks, else failure. -/
def afterSelection (rir st : String) (resp : RResponse) (role nm : String) : Option RDAPOrg :=
  let s1 : String × String :=
    if nm = "" then
      match resp.entities.find? (fun e => vcardName e.vcard ≠ "") with
      | some e => (vcardName e.vcard, "entity")
      | none => (nm, role)
    else (nm, role)
  let s2 : String × String :=
    if s1.1 = "" then
      if resp.name ≠ "" ∧ ¬chHasSuf resp.name.data "-MNT".data then (resp.name, "network_name")
      else s1
    else s1
  let s3 : String × String :=
    if s2.1 = "" then
      let r := extractOrgFromRemarks resp
      if r ≠ "" then (r, "remark") else s2
    else s2
  if s3.1 = "" then none
  else some { orgName := s3.1, rir := rir, sourceRole := s3.2, statusLabel := st }

/-- ParseOrg of parser.go (lines 15-170): scan the entities for role
candidates, then select, in source order, customer, ORG- registrant, any
registrant, a non-empty remark, a good network name (non-empty, not -MNT,
longer than 3 bytes, not UK-), administrative, technical, abuse; the remark
and network-name branches return at once, entity branches extract the vCard
name and fall back through afterSelection.  none models the
no-organization-name error. -/
def parseOrg (resp : RResponse) : Option RDAPOrg :=
  let rir := determineRIR resp
  let st := match resp.status with | [] => "" | s :: _ => s
  let c := resp.entities.foldl scanEntity noCands
  let hasGoodName := resp.name ≠ "" ∧ ¬chHasSuf resp.name.data "-MNT".data ∧
    resp.name.length > 3 ∧ ¬chHasPre resp.name.data "UK-".data
  let remarkOrg := extractOrgFromRemarks resp
  match c.customer with
  | some e => afterSelection rir st resp "customer" (selectedName e)
  | none =>
    match c.orgReg with
    | some e => afterSelection rir st resp "registrant" (selectedName e)
    | none =>
      match c.reg with
      | some e => afterSelection rir st resp "registrant" (selectedName e)
      | none =>
        if remarkOrg ≠ "" then
          some { orgName := remarkOrg, rir := rir, sourceRole := "remark", statusLabel := st }
        else if hasGoodName then
          some { orgName := resp.name, rir := rir, sourceRole := "network_name", statusLabel := st }
        else
          match c.admin with
          | some e => afterSelection rir st resp "administrative" (selectedName e)
          | none =>
            match c.tech with
            | some e => afterSelection rir st resp "technical" (selectedName e)
            | none =>
              match c.abuse with
              | some e => afterSelection rir st resp "abuse" (selectedName e)
              | none => afterSelection rir st resp "" ""

/-! ## Decidable equality on Except results -/

instance {ε α : Type} [DecidableEq ε] [DecidableEq α] : DecidableEq (Except ε α) := fun a b =>
  match a, b with
  | .ok x, .ok y => if h : x = y then isTrue (by simp [h]) else isFalse (by simp [h])
  | .error x, .error y => if h : x = y then isTrue (by simp [h]) else isFalse (by simp [h])
  | .ok _, .error _ => isFalse (by simp)
  | .error _, .ok _ => isFalse (by simp)

/-! ## Concrete fixtures used by the claim theorems and witnesses -/

/-- The first /24 child of the overlap-deletion scenario
(spec section 8 scenario 6, TestOverlapMultipleChildren):
10.0.0.0-10.0.0.255. -/
def specificA : GoRecord :=
  { start := .v4 167772160, endA := .v4 167772415, asn := 100,
    orgName := "Specific Org", pfx := "10.0.0.0/24" }

/-- The second /24 child: 10.0.1.0-10.0.1.255. -/
def specificB : GoRecord :=
  { start := .v4 167772416, endA := .v4 167772671, asn := 100,
    orgName := "Specific Org", pfx := "10.0.1.0/24" }

/-- The third /24 child: 10.0.2.0-10.0.2.255. -/
def specificC : GoRecord :=
  { start := .v4 167772672, endA := .v4 167772927, asn := 100,
    orgName := "Specific Org", pfx := "10.0.2.0/24" }

/-- The covering /22: 10.0.0.0-10.0.3.255. -/
def broadRec : GoRecord :=
  { start := .v4 167772160, endA := .v4 167773183, asn := 200,
    orgName := "Broad Org", pfx := "10.0.0.0/22" }

/-- The scenario state: three /24 children written into a fresh index,
then the covering /22. -/
def childrenThenBroad : Except DBErr DBState := do
  let d1 ← putRange specificA { entries := [], closed := false }
  let d2 ← putRange specificB d1
  let d3 ← putRange specificC d2
  putRange broadRec d3

/-- A well-formed one-entry store for the GetByIP witness: the record
10.0.0.0-10.0.0.255 under its R4: start key. -/
def wEntry : Entry :=
  { key := [82, 52, 58, 10, 0, 0, 0],
    val := { endBytes := [10, 0, 0, 255], asn := 64512, orgName := "Org W", pfx := "10.0.0.0/24" } }

/-- The open database holding wEntry. -/
def wDB : DBState := { entries := [wEntry], closed := false }

/-- The decoded record of wEntry. -/
def wRec : GoRecord :=
  { start := .v4 167772160, endA := .v4 167772415, asn := 64512,
    orgName := "Org W", pfx := "10.0.0.0/24" }

/-- A RIPE organisation whose org-name is empty (the RPSL loader stores
organisations without org-name, spec section 4.3.1). -/
def emptyNameOrg : Organisation := { orgID := "ORG-X", orgName := "", orgType := "LIR" }

/-- An inetnum whose handle resolves to emptyNameOrg while its descr would
pass the valid-org-remark filter. -/
def inetEmptyOrgName : Inetnum :=
  { startU := 167772160, endU := 167772415, orgID := "ORG-X", status := "ASSIGNED PA",
    country := "US", netname := "NETX", descr := "Amazon.com, Inc.", remarks := [] }

/-- An RDAP response with no entities, a good network name and a non-empty
remark. -/
def remarkResp : RResponse :=
  { name := "ExampleNet", startAddress := "", status := [], entities := [],
    remarks := [{ description := ["Acme Corp"] }], links := [], port43 := "" }

/-- An RDAP response with only an administrative entity and a non-empty
remark. -/
def adminRemarkResp : RResponse :=
  { name := "", startAddress := "", status := ["ACTIVE"],
    entities := [{ handle := "ADM1", roles := ["administrative"],
                   vcard := some [("fn", "Admin Person")], nested := [] }],
    remarks := [{ description := ["Widget LLC"] }], links := [], port43 := "whois.arin.net" }

/-- A response has no selectable customer or registrant role: every entity
that survives the -MNT filter carries neither role (case-insensitively). -/
def noSelRoles (resp : RResponse) : Prop :=
  ∀ e ∈ resp.entities, chHasSuf e.handle.data "-MNT".data = false →
    ∀ r ∈ e.roles, String.mk (chToLower r.data) ≠ "customer"
      ∧ String.mk (chToLower r.data) ≠ "registrant"

/-! ## End of definitions -/

/-! ## Theorems on the iptoasn embedding (claims C3, C6, C7) -/

/-- Helper for claim C3: from the state start = 0, end = 0xFFFFFFFF the
rangeToCIDRsV4 loop makes no progress (it emits 0.0.0.0/0, adds the uint32
block size 1 <<< 32 = 0 to start, and the wraparound guard does not fire
because end = 0xFFFFFFFF), so every fuel is exhausted. -/
theorem rangeLoop_full_none :
    ∀ (fuel : Nat) (acc : List (Nat × Nat)),
      rangeLoop fuel 0 4294967295 acc = none := by
  intro fuel
  induction fuel with
  | zero => intro acc; rfl
  | succ n ih =>
    intro acc
    have h : rangeLoop (n + 1) 0 4294967295 acc
        = rangeLoop n 0 4294967295 ((0, 0) :: acc) := rfl
    rw [h]
    exact ih _

/-- Claim C3 (code bug): the range-to-CIDRs conversion does not terminate on
the full IPv4 range 0.0.0.0-255.255.255.255.  For every fuel bound the loop
is still running (the source's overflow guard, startInt = 0 and
endInt ≠ 0xFFFFFFFF, can never be true: a wrap to 0 forces
endInt = 0xFFFFFFFF), contradicting the claim that the conversion
terminates for every start ≤ end and handles the full range. -/
theorem c3_rangeToCIDRsV4_full_range_diverges :
    ∀ fuel : Nat, rangeToCIDRsV4 fuel 0 4294967295 = .ok none := by
  intro fuel
  have h := rangeLoop_full_none fuel []
  simp [rangeToCIDRsV4, h]

/-- Claim C6 (code bug): Deduplicate keys on the CIDR string plus the single
character string(rune(ASN)), so the distinct 32-bit ASNs 4200000000 and
4200000001 (both above 0x10FFFF, hence both U+FFFD) collide and only one of
the three records of the repository's own regression test survives, where
the test (and the claim) expect two. -/
theorem c6_dedup_collapses_distinct_large_asns :
    (Deduplicate
        [{ cidr := "1.0.0.0/24", asn := 4200000000, country := "", registry := "", asName := "" },
         { cidr := "1.0.0.0/24", asn := 4200000001, country := "", registry := "", asName := "" },
         { cidr := "1.0.0.0/24", asn := 4200000000, country := "", registry := "", asName := "" }]).length = 1
      ∧ (1 : Nat) ≠ 2 := by
  constructor
  · rfl
  · decide

/-- Claim C7 (confirmed): parsing the TSV line
204.110.219.0 TAB 204.110.221.255 TAB 16509 TAB US TAB ARIN TAB AMAZON-02
yields exactly the two canonical prefixes 204.110.219.0/24
(uint32 3429817088, length 24) and 204.110.220.0/23 (uint32 3429817344,
length 23), each with ASN 16509, country US, registry ARIN and AS name
AMAZON-02. -/
theorem c7_multi_cidr_line :
    parseNext "204.110.219.0\t204.110.221.255\t16509\tUS\tARIN\tAMAZON-02"
      = .ok (some
          [{ pfx := (3429817088, 24), startU := 3429817088, endU := 3429817343,
             asn := 16509, country := "US", registry := "ARIN", asName := "AMAZON-02" },
           { pfx := (3429817344, 23), startU := 3429817344, endU := 3429817855,
             asn := 16509, country := "US", registry := "ARIN", asName := "AMAZON-02" }]) := by
  rfl

/-! ## Theorems on the main range index (claims C1, C2, C8, C9, C10) -/

/-- Claim C1 (code bug): writing the three /24 children and then the
covering /22 does not delete the children.  The overlap check examines at
most two entries and here examines none (the seek lands on the first R4:
entry and the step back invalidates the iterator), after which the /22
overwrites the same-start /24 under the shared start-only key.  Lookups at
10.0.1.100 and 10.0.2.100 still return the Specific Org children and
10.0.3.100 is not found, where the claim (and the repository's own
TestOverlapMultipleChildren) expect Broad Org everywhere. -/
theorem c1_broad_insert_leaves_specific_children :
    childrenThenBroad.bind (getByIP (.v4 167772260)) = .ok broadRec
    ∧ childrenThenBroad.bind (getByIP (.v4 167772516)) = .ok specificB
    ∧ childrenThenBroad.bind (getByIP (.v4 167772772)) = .ok specificC
    ∧ childrenThenBroad.bind (getByIP (.v4 167773028)) = .error .notFound
    ∧ specificB.orgName ≠ "Broad Org" :=
  ⟨rfl, rfl, rfl, rfl, by decide⟩

/-- Claim C2 counterexample: in the main index the store key of a range
record is EncodeRangeKey of its start alone, 7 bytes with no end, so the
same-start child 10.0.0.0/24 and parent 10.0.0.0/22 share one key and
cannot coexist: after putting both, the index holds a single entry. -/
theorem c2_main_index_key_omits_end :
    encodeRangeKey specificA.start = encodeRangeKey broadRec.start
    ∧ specificA.endA ≠ broadRec.endA
    ∧ (encodeRangeKey specificA.start).length = 7
    ∧ ((putRange specificA { entries := [], closed := false }).bind (putRange broadRec)).map
        (fun d => d.entries.length) = .ok 1 :=
  ⟨rfl, by decide, rfl, rfl⟩

/-- Big-endian 4-byte encodings of distinct uint32 values are distinct. -/
theorem be4_inj {x y : Nat} (hx : x < 4294967296) (hy : y < 4294967296)
    (h : be4 x = be4 y) : x = y := by
  simp only [be4, List.cons.injEq, and_true] at h
  obtain ⟨h1, h2, h3, h4⟩ := h
  omega

/-- Claim C2 (amended): in the RIPE and ARIN bulk range indexes the key
makeRangeKey is R4: plus big-endian start plus big-endian end, so two
ranges that share a start but differ in their end are stored under distinct
keys; the main index instead keys on the start alone (see the
counterexample). -/
theorem c2_bulk_key_start_end_distinct :
    ∀ s e e' : Nat, e < 4294967296 → e' < 4294967296 → e ≠ e' →
      makeRangeKey s e ≠ makeRangeKey s e' := by
  intro s e e' he he' hne heq
  unfold makeRangeKey at heq
  exact hne (be4_inj he he' (List.append_cancel_left heq))

/-- Witness for claim C2: the parent and child ranges of the scenario get
distinct RIPE-bulk keys. -/
theorem c2_bulk_key_start_end_distinct_witness :
    (167772415 : Nat) < 4294967296 ∧ (167773183 : Nat) < 4294967296
    ∧ (167772415 : Nat) ≠ 167773183
    ∧ makeRangeKey 167772160 167772415 ≠ makeRangeKey 167772160 167773183 :=
  ⟨by decide, by decide, by decide,
    c2_bulk_key_start_end_distinct 167772160 167772415 167773183 (by decide) (by decide) (by decide)⟩

/-- Claim C8 counterexample: iterating ranges on a closed database fails
with the underlying store's closed error, which is not the DatabaseClosed
error (NewIterator of db.go performs no closed check). -/
theorem c8_iterate_after_close_not_database_closed :
    iterateRanges true { entries := [], closed := true } = .error .levelDBClosed
    ∧ DBErr.levelDBClosed ≠ DBErr.databaseClosed :=
  ⟨rfl, by decide⟩

/-- Claim C8 (amended): after Close, Get, Put, Delete and GetByIP fail with
DatabaseClosed, but range iteration and counting go through NewIterator,
which lacks the closed check, and surface the underlying store's closed
error instead. -/
theorem c8_closed_ops_errors :
    ∀ (d : DBState) (k : List Nat) (v : StoredV) (ip : GoAddr) (v4 : Bool),
      d.closed = true →
        dbGet d k = .error .databaseClosed
        ∧ dbPut d k v = .error .databaseClosed
        ∧ dbDelete d k = .error .databaseClosed
        ∧ getByIP ip d = .error .databaseClosed
        ∧ iterateRanges v4 d = .error .levelDBClosed
        ∧ countRanges d = .error .levelDBClosed := by
  intro d k v ip v4 h
  refine ⟨?_, ?_, ?_, ?_, ?_, ?_⟩ <;>
    simp [dbGet, dbPut, dbDelete, getByIP, iterateRanges, countRanges, h]

/-- Witness for claim C8: the closed empty database. -/
theorem c8_closed_ops_errors_witness :
    ({ entries := [], closed := true } : DBState).closed = true
    ∧ (dbGet { entries := [], closed := true } [0] = .error .databaseClosed
       ∧ dbPut { entries := [], closed := true } [0] { endBytes := [], asn := 0, orgName := "", pfx := "" } = .error .databaseClosed
       ∧ dbDelete { entries := [], closed := true } [0] = .error .databaseClosed
       ∧ getByIP .invalid { entries := [], closed := true } = .error .databaseClosed
       ∧ iterateRanges true { entries := [], closed := true } = .error .levelDBClosed
       ∧ countRanges { entries := [], closed := true } = .error .levelDBClosed) :=
  ⟨rfl, c8_closed_ops_errors { entries := [], closed := true } [0]
    { endBytes := [], asn := 0, orgName := "", pfx := "" } .invalid true rfl⟩

/-- A failing overlapStep reports one of the two overlap errors. -/
theorem overlapStep_fail_cases {newRec : GoRecord} {e : Entry} {err : DBErr}
    (h : overlapStep newRec e = .fail err) :
    err = .overlapCovered ∨ err = .overlapConflict := by
  simp only [overlapStep] at h
  split at h
  · exact absurd h (by simp)
  · split at h
    · exact absurd h (by simp)
    · split at h
      · split at h
        · exact absurd h (by simp)
        · split at h
          · left; injection h with h'; exact h'.symm
          · split at h
            · exact absurd h (by simp)
            · right; injection h with h'; exact h'.symm
      · exact absurd h (by simp)

/-- A failing checkOverlapCore reports one of the two overlap errors. -/
theorem checkOverlapCore_error_cases {newRec : GoRecord} {l : Store} {err : DBErr}
    (h : checkOverlapCore newRec l = .error err) :
    err = .overlapCovered ∨ err = .overlapConflict := by
  simp only [checkOverlapCore] at h
  split at h
  · exact absurd h (by simp)
  · split at h
    · exact absurd h (by simp)
    · split at h
      case _ heq => injection h with h'; subst h'; exact overlapStep_fail_cases heq
      · exact absurd h (by simp)
      · exact absurd h (by simp)
      · split at h
        · exact absurd h (by simp)
        · split at h
          case _ heq => injection h with h'; subst h'; exact overlapStep_fail_cases heq
          · exact absurd h (by simp)
          · exact absurd h (by simp)
          · exact absurd h (by simp)

/-- A failing checkOverlap reports one of the two overlap errors. -/
theorem checkOverlap_error_cases {rec : GoRecord} {d : DBState} {err : DBErr}
    (h : checkOverlap rec d = .error err) :
    err = .overlapCovered ∨ err = .overlapConflict := by
  unfold checkOverlap at h
  by_cases hc : d.closed
  · rw [if_pos hc] at h; exact absurd h (by simp)
  · rw [if_neg hc] at h
    cases hcc : checkOverlapCore rec d.entries with
    | error e2 =>
      rw [hcc] at h; injection h with h'; subst h'
      exact checkOverlapCore_error_cases hcc
    | ok l => rw [hcc] at h; exact absurd h (by simp)

/-- Claim C10 (confirmed): PutRange returns InvalidRange exactly for the
malformed records (an invalid endpoint or start after end); the validation
runs before the overlap check and the write, whose failures carry other
error values, and an error returns the state unchanged. -/
theorem c10_putRange_invalid_range_iff :
    ∀ (rec : GoRecord) (d : DBState),
      putRange rec d = .error .invalidRange ↔
        (rec.start.isValid = false ∨ rec.endA.isValid = false
          ∨ addrCmp rec.start rec.endA = Ordering.gt) := by
  intro rec d
  constructor
  · intro h
    unfold putRange at h
    by_cases h1 : (¬rec.start.isValid ∨ ¬rec.endA.isValid)
    · rcases h1 with h1 | h1
      · exact Or.inl (by simpa using h1)
      · exact Or.inr (Or.inl (by simpa using h1))
    · rw [if_neg h1] at h
      by_cases h2 : addrCmp rec.start rec.endA = Ordering.gt
      · exact Or.inr (Or.inr h2)
      · rw [if_neg h2] at h
        exfalso
        cases hco : checkOverlap rec d with
        | error err =>
          rw [hco] at h
          injection h with h'
          subst h'
          rcases checkOverlap_error_cases hco with h3 | h3 <;> simp at h3
        | ok d1 =>
          rw [hco] at h
          dsimp only at h
          unfold dbPut at h
          by_cases h4 : d1.closed = true
          · rw [if_pos h4] at h; injection h with h'; exact absurd h' (by simp)
          · rw [if_neg h4] at h; exact absurd h (by simp)
  · intro h
    unfold putRange
    rcases h with h | h | h
    · rw [if_pos (Or.inl (by simp [h]))]
    · rw [if_pos (Or.inr (by simp [h]))]
    · by_cases h1 : (¬rec.start.isValid ∨ ¬rec.endA.isValid)
      · rw [if_pos h1]
      · rw [if_neg h1, if_pos h]

/-- A successful finishEntry returns only records whose range contains the
query. -/
theorem finishEntry_ok_inRange {ip : GoAddr} {e : Entry} {rec : GoRecord}
    (h : finishEntry ip e = .ok rec) : isInRange ip rec.start rec.endA = true := by
  unfold finishEntry at h
  split at h
  · exact absurd h (by simp)
  · split at h
    · exact absurd h (by simp)
    · split at h
      case isTrue hin =>
        injection h with h'
        subst h'
        exact hin
      · exact absurd h (by simp)

/-- A 4-byte slice decodes to an IPv4 address. -/
theorem bytesToIP_len4 {b : List Nat} (h : b.length = 4) :
    ∃ n, bytesToIP b = some (.v4 n) :=
  ⟨_, by unfold bytesToIP; rw [if_pos h]⟩

/-- A 16-byte slice decodes to an IPv6 address. -/
theorem bytesToIP_len16 {b : List Nat} (h : b.length = 16) :
    ∃ n, bytesToIP b = some (.v6 n) :=
  ⟨b.foldl (fun a x => a * 256 + x) 0, by
    unfold bytesToIP
    rw [if_neg (by omega), if_pos h]⟩

/-- A key under the R4: text decodes to an IPv4 start. -/
theorem decodeRangeKey_v4 {t : List Nat} {s : GoAddr}
    (h : decodeRangeKey (82 :: 52 :: 58 :: t) = some s) : s.is4 = true := by
  simp only [decodeRangeKey] at h
  split at h
  case isTrue hl =>
    obtain ⟨n, hn⟩ := bytesToIP_len4 hl
    rw [hn] at h
    injection h with h'
    subst h'
    rfl
  · exact absurd h (by simp)

/-- A key under the R6: text decodes to an IPv6 start. -/
theorem decodeRangeKey_v6 {t : List Nat} {s : GoAddr}
    (h : decodeRangeKey (82 :: 54 :: 58 :: t) = some s) : s.is4 = false := by
  simp only [decodeRangeKey] at h
  split at h
  case isTrue hl =>
    obtain ⟨n, hn⟩ := bytesToIP_len16 hl
    rw [hn] at h
    injection h with h'
    subst h'
    rfl
  · exact absurd h (by simp)

/-- A decoded record's end comes from its stored end bytes. -/
theorem decodeRecordM_endA {sb : List Nat} {v : StoredV} {rec : GoRecord}
    (h : decodeRecordM sb v = some rec) : bytesToIP v.endBytes = some rec.endA := by
  unfold decodeRecordM at h
  split at h
  case h_1 s e hs he =>
    injection h with h'
    subst h'
    exact he
  case h_2 =>
    exact absurd h (by simp)

/-- A decoded record's start comes from the key bytes. -/
theorem decodeRecordM_start {sb : List Nat} {v : StoredV} {rec : GoRecord}
    (h : decodeRecordM sb v = some rec) : bytesToIP sb = some rec.start := by
  unfold decodeRecordM at h
  split at h
  case h_1 s e hs he =>
    injection h with h'
    subst h'
    exact hs
  case h_2 =>
    exact absurd h (by simp)

/-- A successful finishEntry decodes the key and the stored record. -/
theorem finishEntry_ok_decode {ip : GoAddr} {e : Entry} {rec : GoRecord}
    (h : finishEntry ip e = .ok rec) :
    ∃ s, decodeRangeKey e.key = some s ∧ decodeRecordM (ipToBytes s) e.val = some rec := by
  unfold finishEntry at h
  split at h
  · exact absurd h (by simp)
  case h_2 s hs =>
    split at h
    · exact absurd h (by simp)
    case h_2 rec0 hr =>
      split at h
      case isTrue hin =>
        injection h with h'
        subst h'
        exact ⟨s, hs, hr⟩
      · exact absurd h (by simp)

/-- A three-element list that is a prefix determines the head of the list. -/
theorem pre3_exists {a b c : Nat} {k : List Nat}
    (h : ([a, b, c] : List Nat).isPrefixOf k = true) : ∃ t, k = a :: b :: c :: t := by
  have h2 : [a, b, c] <+: k := by
    rwa [List.isPrefixOf_iff_prefix] at h
  obtain ⟨t, ht⟩ := h2
  exact ⟨t, ht.symm⟩

/-- finishEntry on an R4: entry with 4 end bytes returns an IPv4 record. -/
theorem finishEntry_ok_v4 {ip : GoAddr} {e : Entry} {rec : GoRecord}
    (hpre : preR4.isPrefixOf e.key = true) (hw : e.val.endBytes.length = 4)
    (h : finishEntry ip e = .ok rec) :
    rec.start.is4 = true ∧ rec.endA.is4 = true := by
  obtain ⟨s, hs, hr⟩ := finishEntry_ok_decode h
  obtain ⟨t, ht⟩ := pre3_exists hpre
  rw [ht] at hs
  have h4 : s.is4 = true := decodeRangeKey_v4 hs
  constructor
  · have hst := decodeRecordM_start hr
    cases s with
    | invalid => simp [GoAddr.is4] at h4
    | v6 n => simp [GoAddr.is4] at h4
    | v4 n =>
      have hb : (ipToBytes (GoAddr.v4 n)).length = 4 := by simp [ipToBytes, be4]
      obtain ⟨m, hm⟩ := bytesToIP_len4 hb
      rw [hm] at hst
      injection hst with h'
      rw [← h']
      rfl
  · have hend := decodeRecordM_endA hr
    obtain ⟨m, hm⟩ := bytesToIP_len4 hw
    rw [hm] at hend
    injection hend with h'
    rw [← h']
    rfl

/-- finishEntry on an R6: entry with 16 end bytes returns an IPv6 record. -/
theorem finishEntry_ok_v6 {ip : GoAddr} {e : Entry} {rec : GoRecord}
    (hpre : preR6.isPrefixOf e.key = true) (hw : e.val.endBytes.length = 16)
    (h : finishEntry ip e = .ok rec) :
    rec.start.is4 = false ∧ rec.endA.is4 = false := by
  obtain ⟨s, hs, hr⟩ := finishEntry_ok_decode h
  obtain ⟨t, ht⟩ := pre3_exists hpre
  rw [ht] at hs
  have h4 : s.is4 = false := decodeRangeKey_v6 hs
  constructor
  · have hst := decodeRecordM_start hr
    cases s with
    | invalid =>
      exfalso
      simp only [decodeRangeKey] at hs
      split at hs
      case isTrue hl =>
        obtain ⟨n, hn⟩ := bytesToIP_len16 hl
        rw [hn] at hs
        exact absurd hs (by simp)
      case isFalse => exact absurd hs (by simp)
    | v4 n => simp [GoAddr.is4] at h4
    | v6 n =>
      have hb : (ipToBytes (GoAddr.v6 n)).length = 16 := by simp [ipToBytes, be16]
      obtain ⟨m, hm⟩ := bytesToIP_len16 hb
      rw [hm] at hst
      injection hst with h'
      rw [← h']
      rfl
  · have hend := decodeRecordM_endA hr
    obtain ⟨m, hm⟩ := bytesToIP_len16 hw
    rw [hm] at hend
    injection hend with h'
    rw [← h']
    rfl

/-- A successful prevFinish went through finishEntry on a stored entry of
the queried family. -/
theorem prevFinish_ok {ip : GoAddr} {pre : List Nat} {l : Store} {i : Nat} {rec : GoRecord}
    (h : prevFinish ip pre l i = .ok rec) :
    ∃ e, e ∈ l ∧ pre.isPrefixOf e.key = true ∧ finishEntry ip e = .ok rec := by
  unfold prevFinish at h
  split at h
  · exact absurd h (by simp)
  · split at h
    · exact absurd h (by simp)
    case h_2 e he =>
      split at h
      case isTrue hpre => exact ⟨e, List.getElem?_mem he, hpre, h⟩
      · exact absurd h (by simp)

/-- Every successful GetByIP went through finishEntry on a stored entry of
the queried family. -/
theorem getByIPCore_ok {ip : GoAddr} {l : Store} {rec : GoRecord}
    (h : getByIPCore ip l = .ok rec) :
    ∃ e, e ∈ l ∧ (familyPreBytes ip).isPrefixOf e.key = true ∧ finishEntry ip e = .ok rec := by
  simp only [getByIPCore] at h
  split at h
  · split at h
    · exact absurd h (by simp)
    case h_2 e he =>
      split at h
      case isTrue hpre => exact ⟨e, List.getElem?_mem he, hpre, h⟩
      · exact absurd h (by simp)
  case h_2 e he =>
    split at h
    case isTrue hpre =>
      split at h
      · exact absurd h (by simp)
      · split at h
        · exact ⟨e, List.getElem?_mem he, hpre, h⟩
        · exact prevFinish_ok h
        · exact ⟨e, List.getElem?_mem he, hpre, h⟩
    case isFalse => exact prevFinish_ok h

/-- Claim C9 (confirmed): on a well-formed store, whenever GetByIP returns a
record without error, the queried IP lies inside the record's inclusive
range and the record's start and end are of the query's address family; a
candidate whose range does not contain the query is answered with NotFound
instead. -/
theorem c9_getByIP_returns_containing_record :
    ∀ (d : DBState) (ip : GoAddr) (rec : GoRecord),
      wfStore d.entries → getByIP ip d = .ok rec →
        isInRange ip rec.start rec.endA = true
        ∧ rec.start.is4 = ip.is4 ∧ rec.endA.is4 = ip.is4 := by
  intro d ip rec hwf h
  unfold getByIP at h
  split at h
  · exact absurd h (by simp)
  · split at h
    · exact absurd h (by simp)
    · obtain ⟨e, hmem, hpre, hfin⟩ := getByIPCore_ok h
      refine ⟨finishEntry_ok_inRange hfin, ?_⟩
      cases hip : ip.is4 with
      | true =>
        have hpre4 : preR4.isPrefixOf e.key = true := by
          rwa [familyPreBytes, hip, if_pos rfl] at hpre
        have hw4 : e.val.endBytes.length = 4 := (hwf e hmem).1 hpre4
        obtain ⟨h1, h2⟩ := finishEntry_ok_v4 hpre4 hw4 hfin
        exact ⟨h1, h2⟩
      | false =>
        have hpre6 : preR6.isPrefixOf e.key = true := by
          rw [familyPreBytes, hip] at hpre
          simpa using hpre
        have hw6 : e.val.endBytes.length = 16 := (hwf e hmem).2 hpre6
        obtain ⟨h1, h2⟩ := finishEntry_ok_v6 hpre6 hw6 hfin
        exact ⟨h1, h2⟩

/-- Witness for claim C9: the one-entry store, queried at 10.0.0.5. -/
theorem c9_getByIP_returns_containing_record_witness :
    wfStore wDB.entries
    ∧ getByIP (.v4 167772165) wDB = .ok wRec
    ∧ (isInRange (.v4 167772165) wRec.start wRec.endA = true
       ∧ wRec.start.is4 = (GoAddr.v4 167772165).is4
       ∧ wRec.endA.is4 = (GoAddr.v4 167772165).is4) :=
  ⟨by unfold wfStore; decide, rfl,
    c9_getByIP_returns_containing_record wDB (.v4 167772165) wRec
      (by unfold wfStore; decide) rfl⟩

/-! ## Theorems on the RIPE bulk organization resolution (claim C4) -/

/-- Claim C4 counterexample: an inetnum whose handle resolves to an
organisation with an empty org-name keeps that empty name; the resolution
does not fall through to the descr field even though the descr passes the
valid-org-remark filter, because the fallbacks test against the literal
sentinel and the resolved name is the empty string. -/
theorem c4_resolved_empty_org_name_no_fallback :
    resolveOrgName [emptyNameOrg] inetEmptyOrgName = ("", "LIR")
    ∧ isValidOrgRemark "Amazon.com, Inc." = true
    ∧ ("" : String) ≠ "Amazon.com, Inc." :=
  ⟨rfl, rfl, by decide⟩

/-- Claim C4 (amended): whenever the handle is present and resolves, the
resolved org-name is used as-is, empty or not (only the sentinel itself
would re-enable the fallbacks); descr, remarks and netname apply only when
the handle is absent or fails to resolve. -/
theorem c4_org_handle_wins_when_resolved :
    ∀ (orgs : List Organisation) (m : Inetnum) (org : Organisation),
      m.orgID ≠ "" → getOrganisation orgs m.orgID = some org → org.orgName ≠ "(no org)" →
        resolveOrgName orgs m = (org.orgName, org.orgType) := by
  intro orgs m org h1 h2 h3
  simp only [resolveOrgName]
  simp [h1, h2, h3]

/-- Witness for claim C4: the empty-named organisation is used verbatim. -/
theorem c4_org_handle_wins_when_resolved_witness :
    inetEmptyOrgName.orgID ≠ ""
    ∧ getOrganisation [emptyNameOrg] inetEmptyOrgName.orgID = some emptyNameOrg
    ∧ emptyNameOrg.orgName ≠ "(no org)"
    ∧ resolveOrgName [emptyNameOrg] inetEmptyOrgName = (emptyNameOrg.orgName, emptyNameOrg.orgType) :=
  ⟨by decide, rfl, by decide,
    c4_org_handle_wins_when_resolved [emptyNameOrg] inetEmptyOrgName emptyNameOrg
      (by decide) rfl (by decide)⟩

/-! ## Theorems on the RDAP entity-selection precedence (claim C5) -/

/-- Claim C5 counterexample: with no entities, a good network name and a
non-empty remark, ParseOrg uses the remark with source role remark; the
claim says the network name would win with remarks consulted only after
every other branch fails. -/
theorem c5_remark_precedes_network_name :
    parseOrg remarkResp
      = some { orgName := "Acme Corp", rir := "UNKNOWN", sourceRole := "remark", statusLabel := "" }
    ∧ (remarkResp.name ≠ "" ∧ ¬chHasSuf remarkResp.name.data "-MNT".data = true
        ∧ remarkResp.name.length > 3 ∧ ¬chHasPre remarkResp.name.data "UK-".data = true)
    ∧ ("remark" : String) ≠ "network_name" :=
  ⟨rfl, by decide, by decide⟩

/-- roleStep leaves the customer and registrant slots empty for a role that
is neither. -/
theorem roleStep_preserves {e : REntity} {c : Cands} {r : String}
    (hr : String.mk (chToLower r.data) ≠ "customer" ∧ String.mk (chToLower r.data) ≠ "registrant")
    (h : c.customer = none ∧ c.orgReg = none ∧ c.reg = none) :
    (roleStep e c r).customer = none ∧ (roleStep e c r).orgReg = none
      ∧ (roleStep e c r).reg = none := by
  obtain ⟨h1, h2, h3⟩ := h
  unfold roleStep
  rw [if_neg hr.1, if_neg hr.2]
  split
  · split <;> simp [h1, h2, h3]
  · split
    · split <;> simp [h1, h2, h3]
    · split
      · simp [h1, h2, h3]
      · simp [h1, h2, h3]

/-- Folding customer-free and registrant-free roles keeps those slots
empty. -/
theorem rolesFold_preserves {e : REntity} :
    ∀ (rs : List String) (c : Cands),
      (∀ r ∈ rs, String.mk (chToLower r.data) ≠ "customer"
        ∧ String.mk (chToLower r.data) ≠ "registrant") →
      c.customer = none ∧ c.orgReg = none ∧ c.reg = none →
      (rs.foldl (roleStep e) c).customer = none
        ∧ (rs.foldl (roleStep e) c).orgReg = none ∧ (rs.foldl (roleStep e) c).reg = none := by
  intro rs
  induction rs with
  | nil => intro c _ h; exact h
  | cons r rest ih =>
    intro c hall h
    exact ih _ (fun x hx => hall x (List.mem_cons_of_mem r hx))
      (roleStep_preserves (hall r (List.mem_cons_self r rest)) h)

/-- Scanning entities without customer or registrant roles keeps the
customer and registrant slots empty. -/
theorem scanFold_preserves :
    ∀ (es : List REntity) (c : Cands),
      (∀ e ∈ es, chHasSuf e.handle.data "-MNT".data = false →
        ∀ r ∈ e.roles, String.mk (chToLower r.data) ≠ "customer"
          ∧ String.mk (chToLower r.data) ≠ "registrant") →
      c.customer = none ∧ c.orgReg = none ∧ c.reg = none →
      (es.foldl scanEntity c).customer = none
        ∧ (es.foldl scanEntity c).orgReg = none ∧ (es.foldl scanEntity c).reg = none := by
  intro es
  induction es with
  | nil => intro c _ h; exact h
  | cons e rest ih =>
    intro c hall h
    have hstep : (scanEntity c e).customer = none ∧ (scanEntity c e).orgReg = none
        ∧ (scanEntity c e).reg = none := by
      unfold scanEntity
      by_cases hm : chHasSuf e.handle.data "-MNT".data = true
      · rw [if_pos hm]; exact h
      · rw [if_neg hm]
        exact rolesFold_preserves e.roles c
          (hall e (List.mem_cons_self e rest) (by simpa using hm)) h
    exact ih _ (fun x hx => hall x (List.mem_cons_of_mem e hx)) hstep

/-- Claim C5 (amended): the precedence is customer, then ORG- registrant,
then any registrant, then the first non-empty remark line, then a good
network name, then administrative, technical and abuse: whenever no
customer or registrant role survives the -MNT filter and some remark line
is non-empty, ParseOrg returns that remark with source role remark,
regardless of the network name or of administrative, technical or abuse
entities. -/
theorem c5_remark_fourth_in_precedence :
    ∀ resp : RResponse,
      noSelRoles resp → extractOrgFromRemarks resp ≠ "" →
        parseOrg resp = some
          { orgName := extractOrgFromRemarks resp, rir := determineRIR resp,
            sourceRole := "remark",
            statusLabel := match resp.status with | [] => "" | s :: _ => s } := by
  intro resp hroles hrem
  obtain ⟨h1, h2, h3⟩ := scanFold_preserves resp.entities noCands hroles ⟨rfl, rfl, rfl⟩
  simp only [parseOrg]
  rw [h1, h2, h3, if_pos hrem]

/-- Witness for claim C5: the administrative-plus-remark response selects
the remark. -/
theorem c5_remark_fourth_in_precedence_witness :
    noSelRoles adminRemarkResp
    ∧ extractOrgFromRemarks adminRemarkResp ≠ ""
    ∧ parseOrg adminRemarkResp = some
        { orgName := extractOrgFromRemarks adminRemarkResp, rir := determineRIR adminRemarkResp,
          sourceRole := "remark",
          statusLabel := match adminRemarkResp.status with | [] => "" | s :: _ => s } :=
  ⟨by unfold noSelRoles; decide, by decide,
    c5_remark_fourth_in_precedence adminRemarkResp (by unfold noSelRoles; decide) (by decide)⟩

end Iporg
